import Mathlib

/-!
# Verification of `avg_crypto_price.py` (PricePulse)

Shallow embedding of the single source file `src/avg_crypto_price.py`:
a polling client that resolves a coin symbol, repeatedly fetches a price,
maintains a bounded FIFO window of prices (`collections.deque(maxlen=...)`)
and reports a simple moving average, with tenacity-style exponential-backoff
retries and a signal-set cooperative shutdown flag.

Python floats are modelled as rationals (`ℚ`), machine-level concerns such as
rounding of binary floating point are out of scope of the claims treated here.
Python exceptions are modelled by an explicit error type, and the fallible
remote environment (HTTP responses, the value of the shutdown flag at each
check) is passed in explicitly as data.
-/

namespace PricePulse

/-! ## JSON values and HTTP responses

The program consumes parsed JSON (`response.json()`): only numbers, strings,
null and objects are needed by the code paths under verification. -/

/-- Minimal JSON value as produced by `response.json()`. -/
inductive Json where
  | null : Json
  | num (q : ℚ) : Json
  | str (s : String) : Json
  | obj (fields : List (String × Json)) : Json

/-- An HTTP response as seen by the program: status code, raw text
(`response.text`) and parsed JSON body (`response.json()`).
Bodies that are not valid JSON are not modelled: no claim depends on them. -/
structure HttpResponse where
  status : ℕ
  text : String
  body : Json

/-- Python exceptions raised by the code paths under verification.
`RequestException` models `requests.RequestException` (including `HTTPError`
raised by `raise_for_status`), carrying `str(e)` and the optional `.response`
attribute. `ExceptionText` models the bare `raise Exception(response.text)` on
a 404 in `get_coin_symbol`. -/
inductive PyExc where
  | ShutdownRequested (msg : String)
  | RequestException (msg : String) (response : Option HttpResponse)
  | ExceptionText (msg : String)
  | KeyError (key : String)
  | TypeError (msg : String)
  | AttributeError (msg : String)

/-- `str(e)` of a modelled exception (Python renders `KeyError` with quotes
around the key; the quoting is immaterial to every claim and omitted). -/
def strOfExc : PyExc → String
  | .ShutdownRequested m => m
  | .RequestException m _ => m
  | .ExceptionText m => m
  | .KeyError k => k
  | .TypeError m => m
  | .AttributeError m => m

/-- The retry classification of the two `@retry` decorators:
`retry_if_exception_type((requests.RequestException,))` — only
`requests.RequestException` (and subclasses) is retried. -/
def isRetryable : PyExc → Bool
  | .RequestException _ _ => true
  | _ => false

/-- `str()` of a `requests.HTTPError` produced by `raise_for_status`, up to
the reason phrase and URL, which the environment model does not track. -/
def httpErrorStr (r : HttpResponse) : String :=
  if r.status < 500 then toString r.status ++ " Client Error"
  else toString r.status ++ " Server Error"

/-- Python `j[k]`: indexing a parsed-JSON value with a string key.
`KeyError` when the key is absent from a dict, `TypeError` when the value is
not a dict at all. -/
def pyIndex (j : Json) (k : String) : Except PyExc Json :=
  match j with
  | .obj fs =>
    match fs.lookup k with
    | some v => .ok v
    | none => .error (.KeyError k)
  | _ => .error (.TypeError "indexing a non-object")

/-! ## The sliding window (`collections.deque(maxlen=...)`)

`main` holds `prices = deque(maxlen=max_price_storage)` and does
`prices.append(price)` once per successful cycle; a full deque discards its
oldest element on append, and `maxlen=0` keeps the deque empty. -/

/-- `deque(maxlen=m)`: CPython raises `ValueError` for a negative `maxlen`
and otherwise starts an empty deque with capacity `m`. -/
def mkDeque (maxlen : ℤ) : Except String ℕ :=
  if maxlen < 0 then .error "maxlen must be non-negative"
  else .ok maxlen.toNat

/-- `deque.append` under a `maxlen` of `c`: append at the right, then drop
from the left whatever exceeds the capacity (at most one element from any
reachable state, and everything when `c = 0`). -/
def pushWindow (c : ℕ) (w : List ℚ) (v : ℚ) : List ℚ :=
  let l := w ++ [v]
  l.drop (l.length - c)

/-- The window contents after pushing the values of `xs` in order into an
initially empty deque of capacity `c`. -/
def windowAfter (c : ℕ) (xs : List ℚ) : List ℚ :=
  xs.foldl (pushWindow c) []

/-- Line 113: `sma = sum(prices) / len(prices) if prices else 0`. -/
def smaOf (w : List ℚ) : ℚ :=
  if w.isEmpty then 0 else w.sum / (w.length : ℚ)

/-- Division with an explicit zero-denominator check, used to express that
the SMA computation never actually divides by zero. -/
def divSafe (a : ℚ) (b : ℕ) : Option ℚ :=
  if b = 0 then none else some (a / (b : ℚ))

/-- The SMA expression of line 113 with its division routed through
`divSafe`: the conditional guards the division exactly as the code does. -/
def smaChecked (w : List ℚ) : Option ℚ :=
  if w.isEmpty then some 0 else divSafe w.sum w.length

/-- The last `c` elements of `xs` (all of them when `xs` is shorter). -/
def lastN (c : ℕ) (xs : List ℚ) : List ℚ :=
  xs.drop (xs.length - c)

theorem lastN_length (c : ℕ) (xs : List ℚ) :
    (lastN c xs).length = min c xs.length := by
  simp [lastN]
  omega

theorem pushWindow_lastN (c : ℕ) (xs : List ℚ) (v : ℚ) :
    pushWindow c (lastN c xs) v = lastN c (xs ++ [v]) := by
  rcases Nat.eq_zero_or_pos c with hc | hc
  · subst hc
    simp [pushWindow, lastN]
  · by_cases hcn : c ≤ xs.length
    · have hw : (lastN c xs).length = c := by
        rw [lastN_length]; omega
      unfold pushWindow lastN
      simp only [List.length_append, List.length_drop, List.length_cons,
        List.length_nil]
      have h1 : xs.length - (xs.length - c) + 1 - c = 1 := by omega
      have h2 : xs.length + 1 - c = xs.length - c + 1 := by omega
      rw [h1, h2]
      have h3 : (1 : ℕ) ≤ (xs.drop (xs.length - c)).length := by
        simp; omega
      rw [List.drop_append_of_le_length h3, List.drop_drop]
      have h4 : (xs.length - c) + 1 ≤ xs.length := by omega
      rw [List.drop_append_of_le_length h4]
    · have hxs : xs.length - c = 0 := by omega
      unfold pushWindow lastN
      simp only [List.length_append, List.length_drop, List.length_cons,
        List.length_nil, hxs]
      have h1 : xs.length - 0 + 1 - c = 0 := by omega
      have h2 : xs.length + 1 - c = 0 := by omega
      rw [h1, h2]
      simp

theorem windowAfter_eq_lastN (c : ℕ) (xs : List ℚ) :
    windowAfter c xs = lastN c xs := by
  induction xs using List.reverseRecOn with
  | nil => simp [windowAfter, lastN]
  | append_singleton xs v ih =>
    unfold windowAfter at ih ⊢
    rw [List.foldl_append, List.foldl_cons, List.foldl_nil, ih,
      pushWindow_lastN]

theorem windowAfter_length_le (c : ℕ) (xs : List ℚ) :
    (windowAfter c xs).length ≤ c := by
  rw [windowAfter_eq_lastN, lastN_length]
  omega

/-! ## The backoff retrier (`tenacity`)

Both remote calls are decorated with
`@retry(wait=wait_exponential(multiplier=1, min=1, max=900),
        retry=retry_if_exception_type((requests.RequestException,)),
        before_sleep=update_retry_info)`.
Attempts are numbered from 1; `before_sleep` runs after a failed attempt that
will be retried, while `retry_state.attempt_number` is still the number of
the attempt that just failed, and the next attempt begins after the sleep. -/

/-- `tenacity.wait_exponential(multiplier, min, max)`: the wait after the
failure of attempt `attempt` is
`max(max(0, min), min(multiplier * 2^(attempt-1), max))` (`exp_base = 2`). -/
def waitExponential (multiplier mn mx attempt : ℕ) : ℕ :=
  max (max 0 mn) (min (multiplier * 2 ^ (attempt - 1)) mx)

/-- The message extraction of `update_retry_info`, line 34:
`current_exception.response.json().get("status", {}).get("error_message",
str(current_exception))`. An exception without a usable `.response` (or whose
body is not a dict, or whose `"status"` entry is not a dict) makes this
expression raise (`AttributeError`), which the surrounding
`except Exception: raise` re-raises: that outcome is `.error ()`. -/
def extractMessage : PyExc → Except Unit String
  | .RequestException msg (some r) =>
    match r.body with
    | .obj fs =>
      match fs.lookup "status" with
      | some (.obj sfs) =>
        match sfs.lookup "error_message" with
        | some (.str s) => .ok s
        | some _ => .error ()
        | none => .ok msg
      | some _ => .error ()
      | none => .ok msg
    | _ => .error ()
  | _ => .error ()

/-- `update_retry_info` (lines 24–37): on every attempt number that is a
nonzero multiple of 5, log one line with the extracted message; the
`except Exception: raise` clause re-raises any failure of the extraction,
which then propagates out of the retry machinery. -/
def updateRetryInfoHook (attempt : ℕ) (e : PyExc) : Except PyExc (List String) :=
  if attempt ≠ 0 ∧ attempt % 5 = 0 then
    match extractMessage e with
    | .ok m => .ok [m]
    | .error _ => .error (.AttributeError "update_retry_info raised")
  else .ok []

/-- The external circumstances of one attempt of a wrapped remote call: the
value of the global `shutdown_requested` flag at the attempt's check, and the
HTTP response the server would return if the call is issued. -/
structure AttemptEnv where
  flag : Bool
  resp : HttpResponse

/-- Everything observable about one run of a retry-wrapped call:
the final outcome (`none` while the supplied environment is exhausted and the
call would still be retrying), the number of attempts made, per attempt
whether a remote HTTP call was actually issued, the computed backoff sleeps,
and the diagnostic lines logged by `before_sleep`. -/
structure RetryTrace (α : Type) where
  outcome : Option (Except PyExc α)
  attempts : ℕ
  calls : List Bool
  delays : List ℕ
  logs : List String

/-- The tenacity retry loop: run the operation; on success or on a
non-retryable exception stop (returning the value, resp. re-raising the
exception); on a retryable exception compute the wait, run `before_sleep`
(whose own exception, if any, propagates without sleeping), sleep, and retry
with the next attempt number. The environment list bounds how many attempts
can be observed. -/
def runRetry (op : AttemptEnv → Except PyExc α × Bool) :
    ℕ → List AttemptEnv → RetryTrace α
  | _, [] => ⟨none, 0, [], [], []⟩
  | attempt, env :: rest =>
    match op env with
    | (.ok v, called) => ⟨some (.ok v), 1, [called], [], []⟩
    | (.error e, called) =>
      if isRetryable e then
        match updateRetryInfoHook attempt e with
        | .error hx => ⟨some (.error hx), 1, [called], [], []⟩
        | .ok lg =>
          let t := runRetry op (attempt + 1) rest
          ⟨t.outcome, t.attempts + 1, called :: t.calls,
            waitExponential 1 1 900 attempt :: t.delays, lg ++ t.logs⟩
      else ⟨some (.error e), 1, [called], [], []⟩

/-- A retry-wrapped call starts at attempt number 1. -/
def callWithRetry (op : AttemptEnv → Except PyExc α × Bool)
    (envs : List AttemptEnv) : RetryTrace α :=
  runRetry op 1 envs

/-! ## The two remote operations -/

/-- The message of the `ShutdownRequested` raised by both operations. -/
def shutdownMsg : String := "Shutdown requested, aborting fetch."

/-- Python `str.upper()`: uppercase character by character (written via the
character list so that it evaluates definitionally; `String.toUpper` maps the
same `Char.toUpper` over the same characters). -/
def pyUpper (s : String) : String :=
  String.mk (s.data.map Char.toUpper)

/-- Python `.upper()` is only available on strings: extract a string,
`AttributeError` otherwise. -/
def asStr (j : Json) : Except PyExc String :=
  match j with
  | .str s => .ok s
  | _ => .error (.AttributeError "upper")

/-- One attempt of `get_coin_symbol` (lines 45–65): check the shutdown flag
before issuing the request; `GET /coins/{coin_name}`; on 404 raise the bare
`Exception(response.text)`; `raise_for_status` raises `HTTPError` for
4xx/5xx; otherwise return `coin_data["symbol"].upper()`. The boolean records
whether the remote call was issued. -/
def get_coin_symbol_step (env : AttemptEnv) : Except PyExc String × Bool :=
  if env.flag then (.error (.ShutdownRequested shutdownMsg), false)
  else
    let r := env.resp
    if r.status = 404 then (.error (.ExceptionText r.text), true)
    else if 400 ≤ r.status ∧ r.status < 600 then
      (.error (.RequestException (httpErrorStr r) (some r)), true)
    else
      match pyIndex r.body "symbol" with
      | .error e => (.error e, true)
      | .ok j =>
        match asStr j with
        | .error e => (.error e, true)
        | .ok s => (.ok (pyUpper s), true)

/-! ### Timestamp rendering

`fetch_price` does `datetime.fromtimestamp(ts_unix, tz=timezone.utc)
.replace(tzinfo=None).strftime("%Y-%m-%dT%H:%M:%S")`: the epoch timestamp is
converted to the proleptic-Gregorian UTC wall clock and rendered at second
precision without any timezone suffix. -/

/-- Days-to-civil-date conversion for the proleptic Gregorian calendar
(the computation underlying `datetime.fromtimestamp` with `tz=utc`). -/
def civilFromDays (z0 : ℤ) : ℤ × ℕ × ℕ :=
  let z := z0 + 719468
  let era : ℤ := z.fdiv 146097
  let doe : ℕ := (z - era * 146097).toNat
  let yoe : ℕ := (doe - doe / 1460 + doe / 36524 - doe / 146096) / 365
  let y : ℤ := (yoe : ℤ) + era * 400
  let doy : ℕ := doe - (365 * yoe + yoe / 4 - yoe / 100)
  let mp : ℕ := (5 * doy + 2) / 153
  let d : ℕ := doy - (153 * mp + 2) / 5 + 1
  let m : ℕ := if mp < 10 then mp + 3 else mp - 9
  (if m ≤ 2 then y + 1 else y, m, d)

/-- Left-pad the decimal rendering of `n` with zeros to width `w`. -/
def padNum (w n : ℕ) : String :=
  let s := toString n
  String.mk (List.replicate (w - s.length) '0') ++ s

/-- Lines 91–92: epoch seconds → `"%Y-%m-%dT%H:%M:%S"` in UTC, no timezone
suffix (CE years are rendered zero-padded to four digits). -/
def formatTimestamp (ts : ℤ) : String :=
  let days := ts.fdiv 86400
  let secs : ℕ := (ts - days * 86400).toNat
  let c := civilFromDays days
  padNum 4 c.1.toNat ++ "-" ++ padNum 2 c.2.1 ++ "-" ++ padNum 2 c.2.2 ++ "T"
    ++ padNum 2 (secs / 3600) ++ ":" ++ padNum 2 (secs % 3600 / 60) ++ ":"
    ++ padNum 2 (secs % 60)

/-- A JSON number that must be an (integral) epoch timestamp for
`datetime.fromtimestamp`; fractional seconds are floored, which is what the
second-precision rendering produces for the timestamps in scope, and a
non-number raises `TypeError` exactly as `fromtimestamp` does. -/
def asEpoch (j : Json) : Except PyExc ℤ :=
  match j with
  | .num q => .ok ⌊q⌋
  | _ => .error (.TypeError "an integer is required")

/-- A JSON number used as a price. The code performs no check here; a
non-numeric price would only fail later, at the `print` formatting, and that
failure is likewise terminal for the cycle. -/
def asNum (j : Json) : Except PyExc ℚ :=
  match j with
  | .num q => .ok q
  | _ => .error (.TypeError "price is not a number")

/-- One attempt of `fetch_price` (lines 68–93): check the shutdown flag
before issuing the request; `GET /simple/price`; `raise_for_status` for
4xx/5xx; then `data[coin]["usd"]` and `data[coin]["last_updated_at"]`
(each raising `KeyError`/`TypeError` when absent or mis-shaped) and the
timestamp rendering above. The boolean records whether the remote call was
issued. -/
def fetch_price_step (coin : String) (env : AttemptEnv) :
    Except PyExc (ℚ × String) × Bool :=
  if env.flag then (.error (.ShutdownRequested shutdownMsg), false)
  else
    let r := env.resp
    if 400 ≤ r.status ∧ r.status < 600 then
      (.error (.RequestException (httpErrorStr r) (some r)), true)
    else
      match pyIndex r.body coin with
      | .error e => (.error e, true)
      | .ok cdata =>
        match pyIndex cdata "usd" with
        | .error e => (.error e, true)
        | .ok pj =>
          match pyIndex cdata "last_updated_at" with
          | .error e => (.error e, true)
          | .ok tj =>
            match asNum pj with
            | .error e => (.error e, true)
            | .ok p =>
              match asEpoch tj with
              | .error e => (.error e, true)
              | .ok ts => (.ok (p, formatTimestamp ts), true)

/-! ## Output formatting and the poll loop (`main`, lines 96–115) -/

/-- Round `n / d` (`d > 0`) to the nearest integer, ties to even — the
rounding of Python's `format(x, ',.2f')` on the values in scope. Stated on a
numerator/denominator pair so that it evaluates by pure integer
arithmetic. -/
def roundHalfEven (n d : ℤ) : ℤ :=
  let q := n.fdiv d
  let r := n - q * d
  if 2 * r < d then q
  else if d < 2 * r then q + 1
  else if q % 2 = 0 then q else q + 1

/-- Insert a comma after every third digit of a digit list given
least-significant first. -/
def groupAux : List Char → List Char
  | a :: b :: c :: d :: rest => a :: b :: c :: ',' :: groupAux (d :: rest)
  | ds => ds

/-- Python `f"{x:,.2f}"`: two decimal places (rounded half to even) and
thousands separators. The value scaled by 100 is `q.num * 100 / q.den` as a
fraction, rounded by `roundHalfEven`. -/
def fmtUsd (q : ℚ) : String :=
  let cents := roundHalfEven (q.num * 100) (q.den : ℤ)
  let sign := if cents < 0 then "-" else ""
  let n := cents.natAbs
  sign ++ String.mk (groupAux (toString (n / 100)).data.reverse).reverse
    ++ "." ++ padNum 2 (n % 100)

/-- Line 114: `print(f"[{timestamp}] {coin_symbol} → USD: ${price:,.2f}: `
`SMA({len(prices)}): ${sma:,.2f}")`. -/
def formatLine (ts symbol : String) (price : ℚ) (count : ℕ) (sma : ℚ) :
    String :=
  "[" ++ ts ++ "] " ++ symbol ++ " → USD: $" ++ fmtUsd price ++ ": SMA("
    ++ toString count ++ "): $" ++ fmtUsd sma

/-- The external circumstances of one iteration of the `while` loop: the
value of `shutdown_requested` at the loop condition, and the environments of
the successive `fetch_price` attempts of this cycle. -/
structure CycleEnv where
  flag : Bool
  fetchEnvs : List AttemptEnv

/-- What one executed loop iteration produced: how many remote HTTP calls it
issued and the formatted line it printed (none when the fetch failed). -/
structure CycleRec where
  httpCalls : ℕ
  line : Option String

/-- Why the `while` loop stopped. -/
inductive LoopEnd where
  | shutdown
  | fetchError (e : PyExc)
  | stillRetrying
  | fuelOut

/-- The number of `true` entries of a per-attempt call list. -/
def countCalls (bs : List Bool) : ℕ := (bs.filter id).length

/-- The `while not shutdown_requested` loop of `main` (lines 106–115):
per cycle, check the flag, fetch the price through the retrier, on any
exception log it and break, otherwise append to the window, compute the SMA
and print one formatted line. Returns the records of the executed cycles,
the reason the loop ended, and the final window contents. -/
def pollLoop (coin sym : String) (c : ℕ) :
    List ℚ → List CycleEnv → List CycleRec × LoopEnd × List ℚ
  | w, [] => ([], .fuelOut, w)
  | w, cy :: rest =>
    if cy.flag then ([], .shutdown, w)
    else
      let t := callWithRetry (fetch_price_step coin) cy.fetchEnvs
      match t.outcome with
      | some (.ok (price, ts)) =>
        let w' := pushWindow c w price
        let r := pollLoop coin sym c w' rest
        (⟨countCalls t.calls,
          some (formatLine ts sym price w'.length (smaOf w'))⟩ :: r.1,
          r.2.1, r.2.2)
      | some (.error e) => ([⟨countCalls t.calls, none⟩], .fetchError e, w)
      | none => ([⟨countCalls t.calls, none⟩], .stillRetrying, w)

/-- How a run of `main` ended. -/
inductive MainResult where
  | configError (msg : String)
  | startupError (e : PyExc)
  | startupRetrying
  | ran (recs : List CycleRec) (ending : LoopEnd) (window : List ℚ)

/-- `main` (lines 96–115): construct `prices = deque(maxlen=...)` (line 104,
which is where a negative capacity would raise `ValueError`), resolve the
symbol through the retrier (line 105, whose exception, if any, propagates out
of `main` uncaught, ending the process before any polling), then run the
poll loop. -/
def mainModel (coin : String) (maxlen : ℤ) (symEnvs : List AttemptEnv)
    (cycles : List CycleEnv) : MainResult :=
  match mkDeque maxlen with
  | .error msg => .configError msg
  | .ok cap =>
    match (callWithRetry get_coin_symbol_step symEnvs).outcome with
    | none => .startupRetrying
    | some (.error e) => .startupError e
    | some (.ok sym) =>
      let r := pollLoop coin sym cap [] cycles
      .ran r.1 r.2.1 r.2.2

/-! ## The shutdown flag (`shutdown_requested`)

The global is initialised `False` (line 12); the only assignment anywhere in
the program is `shutdown_requested = True` inside `signal_handler`
(lines 39–42). Every other statement that touches it only reads it. -/

/-- The events of the program that could conceivably touch the global state:
the signal handler firing, the loop-condition read, the in-call flag checks,
and the `before_sleep` hook (whose assignments at lines 30–31 create local
variables, not writes to any global). -/
inductive ProgEvent where
  | sigint
  | loopCheck
  | fetchCheck
  | symbolCheck
  | hookRun

/-- Whether an event is the signal handler firing. -/
def isSigint : ProgEvent → Bool
  | .sigint => true
  | _ => false

/-- Effect of one event on the `shutdown_requested` flag: only the signal
handler writes it, and it writes `true`. -/
def flagStep (b : Bool) : ProgEvent → Bool
  | .sigint => true
  | _ => b

/-- The flag after a sequence of events, starting from its initial value
`False` of line 12. -/
def runFlag (evs : List ProgEvent) : Bool :=
  evs.foldl flagStep false


/-! ## Helper lemmas about the retry runner -/

theorem runRetry_nil {α : Type} (op : AttemptEnv → Except PyExc α × Bool)
    (a : ℕ) : runRetry op a [] = ⟨none, 0, [], [], []⟩ := rfl

/-- A successful attempt ends the retry loop at once. -/
theorem runRetry_cons_ok {α : Type} (op : AttemptEnv → Except PyExc α × Bool)
    (env : AttemptEnv) (rest : List AttemptEnv) (a : ℕ) (v : α)
    (called : Bool) (h : op env = (.ok v, called)) :
    runRetry op a (env :: rest) = ⟨some (.ok v), 1, [called], [], []⟩ := by
  rw [runRetry, h]

/-- A non-retryable exception ends the retry loop at once, re-raised. -/
theorem runRetry_cons_terminal {α : Type}
    (op : AttemptEnv → Except PyExc α × Bool)
    (env : AttemptEnv) (rest : List AttemptEnv) (a : ℕ) (e : PyExc)
    (called : Bool) (h : op env = (.error e, called))
    (hr : isRetryable e = false) :
    runRetry op a (env :: rest) = ⟨some (.error e), 1, [called], [], []⟩ := by
  rw [runRetry, h]
  simp only [hr, Bool.false_eq_true, if_false]

/-- A retryable exception whose `before_sleep` hook itself raises ends the
retry loop with the hook's exception, without sleeping. -/
theorem runRetry_cons_hookfail {α : Type}
    (op : AttemptEnv → Except PyExc α × Bool)
    (env : AttemptEnv) (rest : List AttemptEnv) (a : ℕ) (e hx : PyExc)
    (called : Bool) (h : op env = (.error e, called))
    (hr : isRetryable e = true)
    (hk : updateRetryInfoHook a e = .error hx) :
    runRetry op a (env :: rest) = ⟨some (.error hx), 1, [called], [], []⟩ := by
  rw [runRetry, h]
  simp only [hr, if_true, hk]

/-- A retryable exception whose hook succeeds: log, sleep, retry. -/
theorem runRetry_cons_retry {α : Type}
    (op : AttemptEnv → Except PyExc α × Bool)
    (env : AttemptEnv) (rest : List AttemptEnv) (a : ℕ) (e : PyExc)
    (called : Bool) (lg : List String) (h : op env = (.error e, called))
    (hr : isRetryable e = true) (hk : updateRetryInfoHook a e = .ok lg) :
    runRetry op a (env :: rest) =
      { outcome := (runRetry op (a + 1) rest).outcome
        attempts := (runRetry op (a + 1) rest).attempts + 1
        calls := called :: (runRetry op (a + 1) rest).calls
        delays := waitExponential 1 1 900 a :: (runRetry op (a + 1) rest).delays
        logs := lg ++ (runRetry op (a + 1) rest).logs } := by
  rw [runRetry, h]
  simp only [hr, if_true, hk]

/-- One step of the retry loop on an attempt that fails with a retryable
exception whose diagnostic extraction succeeds. -/
theorem runRetry_cons_fail {α : Type} (op : AttemptEnv → Except PyExc α × Bool)
    (env : AttemptEnv) (rest : List AttemptEnv) (a : ℕ) (e : PyExc)
    (m : String) (h : op env = (.error e, true)) (hr : isRetryable e = true)
    (hm : extractMessage e = .ok m) (ha : a ≠ 0) :
    runRetry op a (env :: rest) =
      { outcome := (runRetry op (a + 1) rest).outcome
        attempts := (runRetry op (a + 1) rest).attempts + 1
        calls := true :: (runRetry op (a + 1) rest).calls
        delays := waitExponential 1 1 900 a :: (runRetry op (a + 1) rest).delays
        logs := (if a % 5 = 0 then [m] else [])
          ++ (runRetry op (a + 1) rest).logs } := by
  have hhook : updateRetryInfoHook a e
      = .ok (if a % 5 = 0 then [m] else []) := by
    unfold updateRetryInfoHook
    rw [hm]
    by_cases h5 : a % 5 = 0 <;> simp [h5, ha]
  rw [runRetry, h]
  simp only [hr, if_true, hhook]

/-- Behaviour of the retry loop over a prefix of attempts that all fail with
a retryable exception whose diagnostic extraction succeeds: the loop marches
through the whole prefix, issuing one remote call per attempt, sleeping the
exponential backoff after each failure, logging exactly at the attempt
numbers that are multiples of 5, and then continues into `rest` with the
attempt counter advanced — in particular none of the prefix failures reaches
the caller. -/
theorem runRetry_failRun {α : Type} (op : AttemptEnv → Except PyExc α × Bool) :
    ∀ (envs rest : List AttemptEnv) (errs : ℕ → PyExc) (msgs : ℕ → String)
      (a : ℕ), 1 ≤ a →
    (∀ j (hj : j < envs.length), op (envs.get ⟨j, hj⟩) = (.error (errs j), true)) →
    (∀ j, j < envs.length → isRetryable (errs j) = true) →
    (∀ j, j < envs.length → extractMessage (errs j) = .ok (msgs j)) →
    runRetry op a (envs ++ rest) =
      { outcome := (runRetry op (a + envs.length) rest).outcome
        attempts := envs.length + (runRetry op (a + envs.length) rest).attempts
        calls := List.replicate envs.length true
          ++ (runRetry op (a + envs.length) rest).calls
        delays := (List.range envs.length).map
            (fun k => waitExponential 1 1 900 (a + k))
          ++ (runRetry op (a + envs.length) rest).delays
        logs := (List.range envs.length).filterMap
            (fun k => if (a + k) % 5 = 0 then some (msgs k) else none)
          ++ (runRetry op (a + envs.length) rest).logs } := by
  intro envs
  induction envs with
  | nil =>
    intro rest errs msgs a _ _ _ _
    simp
  | cons env envs ih =>
    intro rest errs msgs a ha hop hret hmsg
    have h0 : op env = (.error (errs 0), true) := by
      have := hop 0 (by simp)
      simpa using this
    have hih := ih rest (fun j => errs (j + 1)) (fun j => msgs (j + 1))
      (a + 1) (by omega)
      (fun j hj => by
        have := hop (j + 1) (by simpa using Nat.succ_lt_succ hj)
        simpa using this)
      (fun j hj => hret (j + 1) (by simpa using Nat.succ_lt_succ hj))
      (fun j hj => hmsg (j + 1) (by simpa using Nat.succ_lt_succ hj))
    show runRetry op a (env :: (envs ++ rest)) = _
    rw [runRetry_cons_fail op env (envs ++ rest) a (errs 0) (msgs 0) h0
      (hret 0 (by simp)) (hmsg 0 (by simp)) (by omega)]
    beta_reduce at hih
    rw [hih]
    have harith : a + 1 + envs.length = a + (envs.length + 1) := by omega
    rw [harith]
    dsimp only [List.length_cons]
    have hdel : ((fun k => waitExponential 1 1 900 (a + k)) ∘ Nat.succ)
        = fun k => waitExponential 1 1 900 (a + 1 + k) := by
      funext k
      simp only [Function.comp_apply]
      congr 1
      omega
    have hlog : ((fun k => if (a + k) % 5 = 0 then some (msgs k) else none)
          ∘ Nat.succ)
        = fun k => if (a + 1 + k) % 5 = 0 then some (msgs (k + 1)) else none := by
      funext k
      simp only [Function.comp_apply]
      have hx : a + (k + 1) = a + 1 + k := by omega
      rw [hx]
    congr 1
    case e_attempts => omega
    case e_delays =>
      rw [List.range_succ_eq_map, List.map_cons, List.map_map, hdel]
      simp
    case e_logs =>
      rw [List.range_succ_eq_map, List.filterMap_cons, List.filterMap_map, hlog]
      by_cases h5 : a % 5 = 0 <;> simp [h5]

/-- If some attempt's environment has the shutdown flag set, an operation
that fails fast on the flag makes the retry loop stop no later than that
attempt, and no remote call is issued at or after it. -/
theorem runRetry_shutdown_stops {α : Type}
    (op : AttemptEnv → Except PyExc α × Bool)
    (hop : ∀ env, env.flag = true →
      op env = (.error (.ShutdownRequested shutdownMsg), false)) :
    ∀ (envs : List AttemptEnv) (a i : ℕ) (hi : i < envs.length),
      (envs.get ⟨i, hi⟩).flag = true →
      (runRetry op a envs).calls.length ≤ i + 1 ∧
      ∀ j (hj : j < (runRetry op a envs).calls.length), i ≤ j →
        (runRetry op a envs).calls.get ⟨j, hj⟩ = false := by
  intro envs
  induction envs with
  | nil =>
    intro a i hi
    simp at hi
  | cons env rest ih =>
    intro a i hi hflag
    match i with
    | 0 =>
      have henv : env.flag = true := by simpa using hflag
      rw [runRetry_cons_terminal op env rest a
        (.ShutdownRequested shutdownMsg) false (hop env henv) rfl]
      refine ⟨by simp, ?_⟩
      intro j hj _
      have hj0 : j = 0 := by
        simp only [List.length_cons, List.length_nil] at hj
        omega
      subst hj0
      rfl
    | i + 1 =>
      have hflag2 : (rest.get ⟨i, by simpa using hi⟩).flag = true := by
        simpa using hflag
      have hrec := ih (a + 1) i (by simpa using hi) hflag2
      rcases h : op env with ⟨res, called⟩
      match res with
      | .ok v =>
        rw [runRetry_cons_ok op env rest a v called h]
        refine ⟨by simp only [List.length_cons, List.length_nil]; omega, ?_⟩
        intro j hj hij
        simp only [List.length_cons, List.length_nil] at hj
        omega
      | .error e =>
        by_cases hr : isRetryable e = true
        · rcases hk : updateRetryInfoHook a e with hx | lg
          · rw [runRetry_cons_hookfail op env rest a e hx called h hr hk]
            refine ⟨by simp only [List.length_cons, List.length_nil]; omega, ?_⟩
            intro j hj hij
            simp only [List.length_cons, List.length_nil] at hj
            omega
          · rw [runRetry_cons_retry op env rest a e called lg h hr hk]
            refine ⟨by
              simp only [List.length_cons]
              omega, ?_⟩
            intro j hj hij
            match j with
            | 0 => omega
            | j + 1 =>
              exact hrec.2 j (Nat.lt_of_succ_lt_succ hj) (by omega)
        · simp only [Bool.not_eq_true] at hr
          rw [runRetry_cons_terminal op env rest a e called h hr]
          refine ⟨by simp only [List.length_cons, List.length_nil]; omega, ?_⟩
          intro j hj hij
          simp only [List.length_cons, List.length_nil] at hj
          omega

/-- The loop-condition check: a cycle whose flag reads `true` ends the loop
immediately, before any fetch. -/
theorem pollLoop_cons_shutdown (coin sym : String) (c : ℕ) (w : List ℚ)
    (cy : CycleEnv) (rest : List CycleEnv) (hf : cy.flag = true) :
    pollLoop coin sym c w (cy :: rest) = ([], .shutdown, w) := by
  rw [pollLoop, if_pos hf]

/-- A cycle whose fetch succeeds appends to the window, prints exactly one
formatted line, and continues. -/
theorem pollLoop_cons_success (coin sym : String) (c : ℕ) (w : List ℚ)
    (cy : CycleEnv) (rest : List CycleEnv) (price : ℚ) (ts : String)
    (hf : cy.flag = false)
    (hout : (callWithRetry (fetch_price_step coin) cy.fetchEnvs).outcome
      = some (.ok (price, ts))) :
    pollLoop coin sym c w (cy :: rest) =
      (⟨countCalls (callWithRetry (fetch_price_step coin) cy.fetchEnvs).calls,
        some (formatLine ts sym price (pushWindow c w price).length
          (smaOf (pushWindow c w price)))⟩
        :: (pollLoop coin sym c (pushWindow c w price) rest).1,
       (pollLoop coin sym c (pushWindow c w price) rest).2.1,
       (pollLoop coin sym c (pushWindow c w price) rest).2.2) := by
  rw [pollLoop, if_neg (by simp [hf])]
  simp only [hout]

/-- A cycle whose fetch raises (any exception surfacing from the retrier)
logs it and breaks the loop. -/
theorem pollLoop_cons_error (coin sym : String) (c : ℕ) (w : List ℚ)
    (cy : CycleEnv) (rest : List CycleEnv) (e : PyExc)
    (hf : cy.flag = false)
    (hout : (callWithRetry (fetch_price_step coin) cy.fetchEnvs).outcome
      = some (.error e)) :
    pollLoop coin sym c w (cy :: rest) =
      ([⟨countCalls (callWithRetry (fetch_price_step coin) cy.fetchEnvs).calls,
         none⟩], .fetchError e, w) := by
  rw [pollLoop, if_neg (by simp [hf])]
  simp only [hout]

/-- Once some cycle's loop check reads the flag as `true`, no cycle from
that index on is executed. -/
theorem pollLoop_shutdown_le (coin sym : String) (c : ℕ) :
    ∀ (cycles : List CycleEnv) (w : List ℚ) (i : ℕ) (hi : i < cycles.length),
      (cycles.get ⟨i, hi⟩).flag = true →
      (pollLoop coin sym c w cycles).1.length ≤ i := by
  intro cycles
  induction cycles with
  | nil =>
    intro w i hi
    simp at hi
  | cons cy rest ih =>
    intro w i hi hflag
    by_cases hf : cy.flag = true
    · rw [pollLoop_cons_shutdown coin sym c w cy rest hf]
      simp
    · match i with
      | 0 =>
        have : cy.flag = true := by simpa using hflag
        exact absurd this hf
      | i + 1 =>
        have hflag2 : (rest.get ⟨i, by simpa using hi⟩).flag = true := by
          simpa using hflag
        have hrec := ih (pushWindow c w
          (0 : ℚ)) i (by simpa using hi) hflag2
        rcases hout : (callWithRetry (fetch_price_step coin)
            cy.fetchEnvs).outcome with _ | res
        · rw [pollLoop, if_neg (by simp [hf])]
          simp only [hout]
          simp
        · match res with
          | .ok (price, ts) =>
            have hrec2 := ih (pushWindow c w price) i (by simpa using hi)
              hflag2
            rw [pollLoop_cons_success coin sym c w cy rest price ts
              (by simpa using hf) hout]
            simpa using Nat.succ_le_succ hrec2
          | .error e =>
            rw [pollLoop_cons_error coin sym c w cy rest e
              (by simpa using hf) hout]
            simp

/-! ## Claim theorems -/

/-- C1: for every window capacity `C ≥ 1` and every finite sequence of
pushed values, after the `n`-th push the reported count equals `min n C`, the
reported average equals the arithmetic mean of the last `min n C` pushed
values (oldest evicted first, FIFO), and the window length never exceeds `C`
at any point. -/
theorem sma_window_correct (c : ℕ) (hc : 1 ≤ c) (xs : List ℚ) :
    (∀ n, n ≤ xs.length →
      (windowAfter c (xs.take n)).length = min n c ∧
      windowAfter c (xs.take n) = (xs.take n).drop (n - c))
  ∧ (∀ n, 1 ≤ n → n ≤ xs.length →
      smaOf (windowAfter c (xs.take n)) =
        ((xs.take n).drop (n - c)).sum / ((min n c : ℕ) : ℚ))
  ∧ (∀ n, (windowAfter c (xs.take n)).length ≤ c) := by
  have key : ∀ n, n ≤ xs.length →
      windowAfter c (xs.take n) = (xs.take n).drop (n - c) := by
    intro n hn
    rw [windowAfter_eq_lastN, lastN]
    congr 1
    rw [List.length_take]
    omega
  have hlen : ∀ n, n ≤ xs.length →
      (windowAfter c (xs.take n)).length = min n c := by
    intro n hn
    rw [key n hn, List.length_drop, List.length_take]
    omega
  refine ⟨fun n hn => ⟨hlen n hn, key n hn⟩, ?_, fun n => windowAfter_length_le c _⟩
  intro n hn1 hn
  have hne : ¬ (windowAfter c (xs.take n)).isEmpty = true := by
    rw [List.isEmpty_iff]
    intro h
    have := hlen n hn
    rw [h] at this
    simp at this
    omega
  rw [smaOf, if_neg hne]
  have hlen2 : ((xs.take n).drop (n - c)).length = min n c := by
    rw [← key n hn]
    exact hlen n hn
  rw [key n hn, hlen2]

/-- Witness for C1 at capacity 2 and the sequence `[1, 2, 3]`. -/
theorem sma_window_correct_witness :
    (1 : ℕ) ≤ 2 ∧
    (windowAfter 2 (([1, 2, 3] : List ℚ).take 3)).length = min 3 2 :=
  ⟨by norm_num, ((sma_window_correct 2 (by norm_num) [1, 2, 3]).1 3
    (by norm_num)).1⟩

/-- C2: inside a retry-wrapped remote call, the delay before the `k`-th
retry of a run of consecutive retryable failures is
`min(900, 1 * 2^(k-1))` seconds — the sequence `1, 2, 4, 8, …` capped at
`900` — and no computed delay ever exceeds `900` for any attempt count. -/
theorem backoff_delay_correct :
    (∀ k, 1 ≤ k → waitExponential 1 1 900 k = min 900 (1 * 2 ^ (k - 1)))
  ∧ (∀ k, waitExponential 1 1 900 k ≤ 900)
  ∧ (∀ {α : Type} (op : AttemptEnv → Except PyExc α × Bool)
      (envs : List AttemptEnv) (errs : ℕ → PyExc) (msgs : ℕ → String),
      (∀ j (hj : j < envs.length),
        op (envs.get ⟨j, hj⟩) = (.error (errs j), true)) →
      (∀ j, j < envs.length → isRetryable (errs j) = true) →
      (∀ j, j < envs.length → extractMessage (errs j) = .ok (msgs j)) →
      (callWithRetry op envs).delays =
        (List.range envs.length).map (fun k => min 900 (1 * 2 ^ k))) := by
  have hwait : ∀ k, waitExponential 1 1 900 (1 + k) = min 900 (1 * 2 ^ k) := by
    intro k
    have h2 : 1 ≤ 2 ^ k := Nat.one_le_two_pow
    simp only [waitExponential, one_mul, Nat.add_sub_cancel_left]
    omega
  refine ⟨?_, ?_, ?_⟩
  · intro k hk
    have h2 : 1 ≤ 2 ^ (k - 1) := Nat.one_le_two_pow
    simp only [waitExponential, one_mul]
    omega
  · intro k
    have h2 : 1 ≤ 2 ^ (k - 1) := Nat.one_le_two_pow
    simp only [waitExponential, one_mul]
    omega
  · intro α op envs errs msgs hop hret hmsg
    have h := runRetry_failRun op envs [] errs msgs 1 (by norm_num)
      hop hret hmsg
    rw [List.append_nil] at h
    unfold callWithRetry
    rw [h]
    simp only [runRetry_nil, List.append_nil]
    exact List.map_congr_left (fun k _ => hwait k)

/-- Witness for C2: the cap is reached at the 11th retry. -/
theorem backoff_delay_correct_witness :
    (1 : ℕ) ≤ 11 ∧ waitExponential 1 1 900 11 = min 900 (1 * 2 ^ (11 - 1)) :=
  ⟨by norm_num, backoff_delay_correct.1 11 (by norm_num)⟩

/-- C9: the shutdown flag starts `False`, the only write anywhere in the
program is the signal handler setting it to `True`, no event resets it, and
once `True` it stays `True` for the rest of the run. -/
theorem shutdown_flag_monotone :
    runFlag [] = false
  ∧ (∀ evs, runFlag evs = evs.any isSigint)
  ∧ (∀ evs evs2, runFlag evs = true → runFlag (evs ++ evs2) = true)
  ∧ (∀ b ev, flagStep b ev = true → b = true ∨ ev = .sigint)
  ∧ (∀ b, flagStep b .sigint = true) := by
  have hfold : ∀ (evs : List ProgEvent) (b : Bool),
      evs.foldl flagStep b = (b || evs.any isSigint) := by
    intro evs
    induction evs with
    | nil => intro b; simp
    | cons ev evs ih =>
      intro b
      rw [List.foldl_cons, ih]
      have hstep : flagStep b ev = (b || isSigint ev) := by
        cases ev <;> simp [flagStep, isSigint]
      rw [hstep]
      simp [Bool.or_assoc]
  refine ⟨rfl, fun evs => by simpa using hfold evs false, ?_, ?_, fun b => rfl⟩
  · intro evs evs2 h
    unfold runFlag at h ⊢
    rw [hfold] at h ⊢
    rw [List.any_append]
    simp only [Bool.false_or] at h ⊢
    rw [h, Bool.true_or]
  · intro b ev h
    cases ev <;> simp [flagStep] at h <;> simp [h]

/-- Witness for C9: a run where the handler fires and a later loop check
still sees the flag as set. -/
theorem shutdown_flag_monotone_witness :
    runFlag [ProgEvent.sigint] = true ∧
    runFlag ([ProgEvent.sigint] ++ [ProgEvent.loopCheck]) = true :=
  ⟨rfl, shutdown_flag_monotone.2.2.1 [ProgEvent.sigint] [ProgEvent.loopCheck]
    rfl⟩

/-- C10: the SMA expression guards its division so it never divides by zero
for any capacity, and with capacity 0 the deque stays empty after every
append, so every cycle reports count 0 and SMA 0 instead of failing. -/
theorem sma_never_divides_by_zero :
    (∀ w : List ℚ, smaChecked w = some (smaOf w))
  ∧ (∀ (c : ℕ) (xs : List ℚ), (smaChecked (windowAfter c xs)).isSome = true)
  ∧ (∀ xs : List ℚ, windowAfter 0 xs = []
      ∧ (windowAfter 0 xs).length = 0 ∧ smaOf (windowAfter 0 xs) = 0) := by
  have h1 : ∀ w : List ℚ, smaChecked w = some (smaOf w) := by
    intro w
    cases w with
    | nil => rfl
    | cons x l => simp [smaChecked, smaOf, divSafe]
  refine ⟨h1, fun c xs => by rw [h1]; rfl, ?_⟩
  intro xs
  have h0 : windowAfter 0 xs = [] := by
    rw [windowAfter_eq_lastN, lastN]
    simp
  exact ⟨h0, by rw [h0]; rfl, by rw [h0]; rfl⟩

/-- C3: once the shutdown flag is set, no subsequent remote HTTP call is
initiated: both `get_coin_symbol` and `fetch_price` check the flag before
issuing their request and fail fast with `ShutdownRequested`, the retrier
treats that error as terminal (not retryable) so the wrapped call stops at
that attempt having issued no remote call at or after it, and the poll loop
exits at its condition check before starting a new cycle. -/
theorem shutdown_no_new_calls :
    (∀ env : AttemptEnv, env.flag = true →
      get_coin_symbol_step env
        = (.error (.ShutdownRequested shutdownMsg), false))
  ∧ (∀ (coin : String) (env : AttemptEnv), env.flag = true →
      fetch_price_step coin env
        = (.error (.ShutdownRequested shutdownMsg), false))
  ∧ (∀ m, isRetryable (.ShutdownRequested m) = false)
  ∧ (∀ (envs : List AttemptEnv) (i : ℕ) (hi : i < envs.length),
      (envs.get ⟨i, hi⟩).flag = true →
      (callWithRetry get_coin_symbol_step envs).calls.length ≤ i + 1 ∧
      ∀ j (hj : j < (callWithRetry get_coin_symbol_step envs).calls.length),
        i ≤ j →
        (callWithRetry get_coin_symbol_step envs).calls.get ⟨j, hj⟩ = false)
  ∧ (∀ (coin : String) (envs : List AttemptEnv) (i : ℕ)
      (hi : i < envs.length), (envs.get ⟨i, hi⟩).flag = true →
      (callWithRetry (fetch_price_step coin) envs).calls.length ≤ i + 1 ∧
      ∀ j (hj : j < (callWithRetry (fetch_price_step coin) envs).calls.length),
        i ≤ j →
        (callWithRetry (fetch_price_step coin) envs).calls.get ⟨j, hj⟩ = false)
  ∧ (∀ (coin sym : String) (c : ℕ) (w : List ℚ) (cycles : List CycleEnv)
      (i : ℕ) (hi : i < cycles.length), (cycles.get ⟨i, hi⟩).flag = true →
      (pollLoop coin sym c w cycles).1.length ≤ i)
  ∧ (∀ (coin sym : String) (c : ℕ) (w : List ℚ) (cy : CycleEnv)
      (rest : List CycleEnv), cy.flag = true →
      pollLoop coin sym c w (cy :: rest) = ([], .shutdown, w)) := by
  have hsym : ∀ env : AttemptEnv, env.flag = true →
      get_coin_symbol_step env
        = (.error (.ShutdownRequested shutdownMsg), false) := by
    intro env h
    simp [get_coin_symbol_step, h]
  have hfetch : ∀ (coin : String) (env : AttemptEnv), env.flag = true →
      fetch_price_step coin env
        = (.error (.ShutdownRequested shutdownMsg), false) := by
    intro coin env h
    simp [fetch_price_step, h]
  refine ⟨hsym, hfetch, fun m => rfl, ?_, ?_, ?_, ?_⟩
  · intro envs i hi hflag
    exact runRetry_shutdown_stops get_coin_symbol_step hsym envs 1 i hi hflag
  · intro coin envs i hi hflag
    exact runRetry_shutdown_stops (fetch_price_step coin) (hfetch coin)
      envs 1 i hi hflag
  · intro coin sym c w cycles i hi hflag
    exact pollLoop_shutdown_le coin sym c cycles w i hi hflag
  · intro coin sym c w cy rest h
    exact pollLoop_cons_shutdown coin sym c w cy rest h

/-- Witness for C3: a cycle that reads the flag as set is not executed. -/
theorem shutdown_no_new_calls_witness :
    (⟨true, []⟩ : CycleEnv).flag = true ∧
    pollLoop "bitcoin" "BTC" 2 [] [⟨true, []⟩] = ([], .shutdown, []) :=
  ⟨rfl, shutdown_no_new_calls.2.2.2.2.2.2 "bitcoin" "BTC" 2 [] ⟨true, []⟩ []
    rfl⟩

/-- C5: a 404 on symbol resolution raises the bare `Exception`, which is not
retryable: the wrapped call ends after exactly one attempt and one remote
call with no backoff, and `main` propagates the error before the poll loop,
so the process ends without entering the polling state. -/
theorem notfound_terminal (env : AttemptEnv) (rest : List AttemptEnv)
    (hf : env.flag = false) (h404 : env.resp.status = 404) :
    callWithRetry get_coin_symbol_step (env :: rest) =
      ⟨some (.error (.ExceptionText env.resp.text)), 1, [true], [], []⟩
  ∧ isRetryable (.ExceptionText env.resp.text) = false
  ∧ (∀ (coin : String) (maxlen : ℤ) (cycles : List CycleEnv), 0 ≤ maxlen →
      mainModel coin maxlen (env :: rest) cycles =
        .startupError (.ExceptionText env.resp.text)) := by
  have hstep : get_coin_symbol_step env
      = (.error (.ExceptionText env.resp.text), true) := by
    simp [get_coin_symbol_step, hf, h404]
  have htrace : callWithRetry get_coin_symbol_step (env :: rest) =
      ⟨some (.error (.ExceptionText env.resp.text)), 1, [true], [], []⟩ :=
    runRetry_cons_terminal get_coin_symbol_step env rest 1
      (.ExceptionText env.resp.text) true hstep rfl
  refine ⟨htrace, rfl, ?_⟩
  intro coin maxlen cycles hm
  rw [mainModel, mkDeque, if_neg (by omega)]
  rw [htrace]

/-- Witness for C5 on a concrete 404 response. -/
theorem notfound_terminal_witness :
    (⟨false, ⟨404, "not found", .null⟩⟩ : AttemptEnv).flag = false ∧
    mainModel "bitcoin" 10 [⟨false, ⟨404, "not found", .null⟩⟩]
        [⟨false, []⟩]
      = .startupError (.ExceptionText "not found") :=
  ⟨rfl, (notfound_terminal ⟨false, ⟨404, "not found", .null⟩⟩ [] rfl rfl).2.2
    "bitcoin" 10 [⟨false, []⟩] (by norm_num)⟩

/-- C7 counterexample: a window capacity of 0 is not rejected — the deque is
constructed and `main` enters the polling state, printing lines with count 0
and SMA 0 — contradicting the claim that every capacity ≤ 0 is rejected at
construction with an `InvalidConfig` error. -/
theorem capacity_zero_accepted_counterexample :
    mkDeque 0 = .ok 0
  ∧ mainModel "bitcoin" 0
      [⟨false, ⟨200, "", .obj [("symbol", .str "btc")]⟩⟩]
      [⟨false, [⟨false, ⟨200, "", .obj [("bitcoin",
        .obj [("usd", .num 42), ("last_updated_at", .num 1700000000)])]⟩⟩]⟩]
    = .ran [⟨1, some "[2023-11-14T22:13:20] BTC → USD: $42.00: SMA(0): $0.00"⟩]
        .fuelOut [] :=
  ⟨rfl, by rfl⟩

/-- C7 amended: the code performs no capacity validation of its own and has
no `InvalidConfig` error. A negative capacity fails only because `deque`
itself raises `ValueError` at construction; capacity 0 is accepted, and the
window then stays empty: every cycle reports count 0 and SMA 0. -/
theorem capacity_validation (m : ℤ) :
    (m < 0 → mkDeque m = .error "maxlen must be non-negative")
  ∧ (0 ≤ m → mkDeque m = .ok m.toNat)
  ∧ (∀ xs : List ℚ, windowAfter 0 xs = []
      ∧ smaOf (windowAfter 0 xs) = 0) := by
  refine ⟨fun h => by rw [mkDeque, if_pos h],
    fun h => by rw [mkDeque, if_neg (by omega)], ?_⟩
  intro xs
  have h0 : windowAfter 0 xs = [] := by
    rw [windowAfter_eq_lastN, lastN]
    simp
  exact ⟨h0, by rw [h0]; rfl⟩

/-- Witness for C7 (amended): both validation branches at concrete inputs. -/
theorem capacity_validation_witness :
    ((-1 : ℤ) < 0 ∧ mkDeque (-1) = .error "maxlen must be non-negative")
  ∧ ((0 : ℤ) ≤ 0 ∧ mkDeque 0 = .ok (0 : ℤ).toNat) :=
  ⟨⟨by norm_num, (capacity_validation (-1)).1 (by norm_num)⟩,
   ⟨by norm_num, (capacity_validation 0).2.1 (by norm_num)⟩⟩

/-- C4 counterexample: a price fetch that fails transiently 4 times and
succeeds on the 5th attempt emits zero diagnostic log lines, not one: the
`before_sleep` hook runs only after a failed attempt, carrying that failed
attempt's number (1–4 here, none a multiple of 5). The successful value is
still the one reported. -/
theorem diag_log_fifth_attempt_counterexample :
    (callWithRetry (fetch_price_step "bitcoin")
      [⟨false, ⟨500, "err", .obj []⟩⟩, ⟨false, ⟨500, "err", .obj []⟩⟩,
       ⟨false, ⟨500, "err", .obj []⟩⟩, ⟨false, ⟨500, "err", .obj []⟩⟩,
       ⟨false, ⟨200, "", .obj [("bitcoin", .obj [("usd", .num 42),
         ("last_updated_at", .num 1700000000)])]⟩⟩]).logs = []
  ∧ (callWithRetry (fetch_price_step "bitcoin")
      [⟨false, ⟨500, "err", .obj []⟩⟩, ⟨false, ⟨500, "err", .obj []⟩⟩,
       ⟨false, ⟨500, "err", .obj []⟩⟩, ⟨false, ⟨500, "err", .obj []⟩⟩,
       ⟨false, ⟨200, "", .obj [("bitcoin", .obj [("usd", .num 42),
         ("last_updated_at", .num 1700000000)])]⟩⟩]).outcome
      = some (.ok (42, "2023-11-14T22:13:20")) :=
  ⟨by rfl, by rfl⟩

/-- C4 amended: during a run of consecutive retryable failures a diagnostic
line is emitted exactly after every failed attempt whose number is a
multiple of 5 (and after no other attempt), containing the most recent
error's message — taken from the structured error body's
`status.error_message` when present, otherwise the error's own text; when
the call fails transiently 4 times and succeeds on the 5th attempt, no
diagnostic line is emitted and the successful value is the one reported. -/
theorem diag_log_fifth_attempt_amended :
    (∀ {α : Type} (op : AttemptEnv → Except PyExc α × Bool)
      (envs rest : List AttemptEnv) (errs : ℕ → PyExc) (msgs : ℕ → String),
      (∀ j (hj : j < envs.length),
        op (envs.get ⟨j, hj⟩) = (.error (errs j), true)) →
      (∀ j, j < envs.length → isRetryable (errs j) = true) →
      (∀ j, j < envs.length → extractMessage (errs j) = .ok (msgs j)) →
      (runRetry op 1 (envs ++ rest)).logs =
        (List.range envs.length).filterMap
          (fun k => if (1 + k) % 5 = 0 then some (msgs k) else none)
        ++ (runRetry op (1 + envs.length) rest).logs)
  ∧ (∀ (m : String) (r : HttpResponse) (fs sfs : List (String × Json))
      (s : String), r.body = .obj fs →
      fs.lookup "status" = some (.obj sfs) →
      sfs.lookup "error_message" = some (.str s) →
      extractMessage (.RequestException m (some r)) = .ok s)
  ∧ (∀ (m : String) (r : HttpResponse) (fs : List (String × Json)),
      r.body = .obj fs → fs.lookup "status" = none →
      extractMessage (.RequestException m (some r)) = .ok m)
  ∧ ((callWithRetry (fetch_price_step "bitcoin")
      [⟨false, ⟨500, "err", .obj []⟩⟩, ⟨false, ⟨500, "err", .obj []⟩⟩,
       ⟨false, ⟨500, "err", .obj []⟩⟩, ⟨false, ⟨500, "err", .obj []⟩⟩,
       ⟨false, ⟨200, "", .obj [("bitcoin", .obj [("usd", .num 42),
         ("last_updated_at", .num 1700000000)])]⟩⟩]).logs = []
    ∧ (callWithRetry (fetch_price_step "bitcoin")
      [⟨false, ⟨500, "err", .obj []⟩⟩, ⟨false, ⟨500, "err", .obj []⟩⟩,
       ⟨false, ⟨500, "err", .obj []⟩⟩, ⟨false, ⟨500, "err", .obj []⟩⟩,
       ⟨false, ⟨200, "", .obj [("bitcoin", .obj [("usd", .num 42),
         ("last_updated_at", .num 1700000000)])]⟩⟩]).outcome
      = some (.ok (42, "2023-11-14T22:13:20"))) := by
  refine ⟨?_, ?_, ?_, by rfl, by rfl⟩
  · intro α op envs rest errs msgs hop hret hmsg
    rw [runRetry_failRun op envs rest errs msgs 1 (by norm_num) hop hret hmsg]
  · intro m r fs sfs s hb hst hmsg
    simp [extractMessage, hb, hst, hmsg]
  · intro m r fs hb hst
    simp [extractMessage, hb, hst]

/-- Witness for C4 (amended): message extraction from a structured error
body at a concrete response. -/
theorem diag_log_fifth_attempt_amended_witness :
    ((⟨429, "", .obj [("status",
        .obj [("error_message", .str "rate limited")])]⟩ : HttpResponse).body
      = .obj [("status", .obj [("error_message", .str "rate limited")])])
  ∧ extractMessage (.RequestException "boom" (some ⟨429, "",
      .obj [("status", .obj [("error_message", .str "rate limited")])]⟩))
    = .ok "rate limited" :=
  ⟨rfl, diag_log_fifth_attempt_amended.2.1 "boom" ⟨429, "",
    .obj [("status", .obj [("error_message", .str "rate limited")])]⟩
    [("status", .obj [("error_message", .str "rate limited")])]
    [("error_message", .str "rate limited")] "rate limited" rfl rfl rfl⟩

/-- C6 counterexample: a 200 response whose payload lacks the expected coin
entry raises `KeyError`, which is not a `requests.RequestException`: the
retrier does not retry it (one attempt), and it surfaces to the poll loop as
the terminal end of the run — contradicting the claim that every malformed
payload is Transient and never surfaces. -/
theorem malformed_payload_counterexample :
    (callWithRetry (fetch_price_step "bitcoin")
        [⟨false, ⟨200, "", .obj [("wrong", .num 1)]⟩⟩]).outcome
      = some (.error (.KeyError "bitcoin"))
  ∧ (callWithRetry (fetch_price_step "bitcoin")
        [⟨false, ⟨200, "", .obj [("wrong", .num 1)]⟩⟩]).attempts = 1
  ∧ isRetryable (.KeyError "bitcoin") = false
  ∧ (pollLoop "bitcoin" "BTC" 10 []
        [⟨false, [⟨false, ⟨200, "", .obj [("wrong", .num 1)]⟩⟩]⟩]).2.1
      = .fetchError (.KeyError "bitcoin") :=
  ⟨by rfl, by rfl, rfl, by rfl⟩

/-- C6 amended: a non-success HTTP response (4xx/5xx) in `fetch_price` is a
retryable `RequestException`, absorbed by the retrier (the outcome of a call
is unaffected by a prefix of such failures); but a payload missing the
expected fields raises a `KeyError`, which is not retryable and surfaces to
the poll loop as a terminal error that ends the run. -/
theorem fetch_error_classification :
    (∀ (coin : String) (env : AttemptEnv), env.flag = false →
      400 ≤ env.resp.status → env.resp.status < 600 →
      fetch_price_step coin env =
        (.error (.RequestException (httpErrorStr env.resp) (some env.resp)),
          true)
      ∧ isRetryable
          (.RequestException (httpErrorStr env.resp) (some env.resp)) = true)
  ∧ (∀ {α : Type} (op : AttemptEnv → Except PyExc α × Bool)
      (envs rest : List AttemptEnv) (errs : ℕ → PyExc) (msgs : ℕ → String),
      (∀ j (hj : j < envs.length),
        op (envs.get ⟨j, hj⟩) = (.error (errs j), true)) →
      (∀ j, j < envs.length → isRetryable (errs j) = true) →
      (∀ j, j < envs.length → extractMessage (errs j) = .ok (msgs j)) →
      (runRetry op 1 (envs ++ rest)).outcome
        = (runRetry op (1 + envs.length) rest).outcome)
  ∧ (∀ (coin : String) (env : AttemptEnv) (fs : List (String × Json)),
      env.flag = false → env.resp.status < 400 → env.resp.body = .obj fs →
      fs.lookup coin = none →
      fetch_price_step coin env = (.error (.KeyError coin), true)
      ∧ isRetryable (.KeyError coin) = false)
  ∧ (∀ (coin sym : String) (c : ℕ) (w : List ℚ) (cy : CycleEnv)
      (rest : List CycleEnv) (e : PyExc), cy.flag = false →
      (callWithRetry (fetch_price_step coin) cy.fetchEnvs).outcome
        = some (.error e) →
      (pollLoop coin sym c w (cy :: rest)).2.1 = .fetchError e) := by
  refine ⟨?_, ?_, ?_, ?_⟩
  · intro coin env hf h4 h6
    constructor
    · simp [fetch_price_step, hf, h4, h6]
    · rfl
  · intro α op envs rest errs msgs hop hret hmsg
    rw [runRetry_failRun op envs rest errs msgs 1 (by norm_num) hop hret hmsg]
  · intro coin env fs hf hs hb hl
    constructor
    · have hcond : ¬ (400 ≤ env.resp.status ∧ env.resp.status < 600) := by
        omega
      simp [fetch_price_step, hf, hcond, pyIndex, hb, hl]
    · rfl
  · intro coin sym c w cy rest e hf hout
    rw [pollLoop_cons_error coin sym c w cy rest e hf hout]

/-- Witness for C6 (amended): a 503 during a fetch is retryable. -/
theorem fetch_error_classification_witness :
    (⟨false, ⟨503, "unavailable", .obj []⟩⟩ : AttemptEnv).flag = false ∧
    fetch_price_step "bitcoin" ⟨false, ⟨503, "unavailable", .obj []⟩⟩
      = (.error (.RequestException
          (httpErrorStr ⟨503, "unavailable", .obj []⟩)
          (some ⟨503, "unavailable", .obj []⟩)), true) :=
  ⟨rfl, (fetch_error_classification.1 "bitcoin"
    ⟨false, ⟨503, "unavailable", .obj []⟩⟩ rfl (by norm_num) (by norm_num)).1⟩

/-- C8: every successful polling cycle emits exactly one formatted line —
the cycle's record carries `some` line and the loop continues — and that
line is built from the second-precision UTC rendering of the server epoch
timestamp with no timezone suffix, the upper-cased symbol, the price as USD
with thousands separators and two decimals, the window occupancy count, and
the SMA formatted identically to the price. -/
theorem output_line_format :
    (∀ (coin sym : String) (c : ℕ) (w : List ℚ) (cy : CycleEnv)
      (rest : List CycleEnv) (price : ℚ) (ts : String), cy.flag = false →
      (callWithRetry (fetch_price_step coin) cy.fetchEnvs).outcome
        = some (.ok (price, ts)) →
      (pollLoop coin sym c w (cy :: rest)).1 =
        ⟨countCalls (callWithRetry (fetch_price_step coin) cy.fetchEnvs).calls,
         some (formatLine ts sym price (pushWindow c w price).length
           (smaOf (pushWindow c w price)))⟩
          :: (pollLoop coin sym c (pushWindow c w price) rest).1)
  ∧ (∀ (ts symbol : String) (price : ℚ) (count : ℕ) (sma : ℚ),
      formatLine ts symbol price count sma =
        "[" ++ ts ++ "] " ++ symbol ++ " → USD: $" ++ fmtUsd price
          ++ ": SMA(" ++ toString count ++ "): $" ++ fmtUsd sma)
  ∧ formatTimestamp 1700000000 = "2023-11-14T22:13:20"
  ∧ fmtUsd 1234567 = "1,234,567.00"
  ∧ fmtUsd (mkRat 134001 2) = "67,000.50"
  ∧ (∀ (env : AttemptEnv) (fs : List (String × Json)) (s : String),
      env.flag = false → env.resp.status < 400 → env.resp.body = .obj fs →
      fs.lookup "symbol" = some (.str s) →
      get_coin_symbol_step env = (.ok (pyUpper s), true)) := by
  refine ⟨?_, fun ts symbol price count sma => rfl, by rfl, by rfl, by rfl, ?_⟩
  · intro coin sym c w cy rest price ts hf hout
    rw [pollLoop_cons_success coin sym c w cy rest price ts hf hout]
  · intro env fs s hf hs hb hl
    have h404 : ¬ env.resp.status = 404 := by omega
    have hcond : ¬ (400 ≤ env.resp.status ∧ env.resp.status < 600) := by
      omega
    simp [get_coin_symbol_step, hf, h404, hcond, pyIndex, hb, hl, asStr]

/-- Witness for C8: symbol upper-casing on a concrete 200 response. -/
theorem output_line_format_witness :
    (⟨false, ⟨200, "", .obj [("symbol", .str "btc")]⟩⟩ : AttemptEnv).flag
      = false ∧
    get_coin_symbol_step ⟨false, ⟨200, "", .obj [("symbol", .str "btc")]⟩⟩
      = (.ok (pyUpper "btc"), true) :=
  ⟨rfl, output_line_format.2.2.2.2.2
    ⟨false, ⟨200, "", .obj [("symbol", .str "btc")]⟩⟩
    [("symbol", .str "btc")] "btc" rfl (by norm_num) rfl rfl⟩

end PricePulse
